import Mathlib

/-!
Verification development for `src/scripts/upcoming.js`: the script that
reconciles the subreddit launch-manifest rows against the internal catalog of
upcoming launches.  The pure core of the script — the fuzzy payload matcher,
the cascading date classifier, launchpad/timezone resolution, flight-number
assignment, the duplicate check and the final per-row report — is embedded
below as executable Lean definitions; the moment-library date arithmetic
(computing the concrete instant) is abstracted away, but the timezone NAME
selected for the local display time is kept, since the claims speak about it.
-/

namespace Upcoming

/-- Convenience: the character list of a string literal. -/
def cs (s : String) : List Char := s.toList

/-! ## Character classes used by the manifest regular expressions -/

/-- Character class `[0-9]` (codes 48–57). -/
def isDigitChar (c : Char) : Bool := decide (48 ≤ c.toNat) && decide (c.toNat ≤ 57)

/-- Character class `[a-z]` under the `i` flag, i.e. any ASCII letter
(codes 97–122 and 65–90). -/
def isAlphaChar (c : Char) : Bool :=
  (decide (97 ≤ c.toNat) && decide (c.toNat ≤ 122)) ||
    (decide (65 ≤ c.toNat) && decide (c.toNat ≤ 90))

/-- Character class `\s` (whitespace). -/
def isSpaceChar (c : Char) : Bool :=
  (c == ' ') || (c == '\t') || (c == '\n') || (c == '\r') || (c == '\u000B') || (c == '\u000C')

/-! ## Substring containment (JavaScript `String.prototype.includes`) -/

/-- Containment of `needle` as a contiguous substring of the haystack,
matching JavaScript `haystack.includes(needle)`. -/
def containsSub (needle : List Char) : List Char → Bool
  | [] => needle.isEmpty
  | c :: rest => needle.isPrefixOf (c :: rest) || containsSub needle rest

/-! ## The fuzzy payload matcher

The script accepts a (payload id, manifest payload) pair exactly when
`fuzz.partial_ratio(payload, manifest_payload) === 100` (line 93).  The
`fuzzball` library is an external dependency, not part of this repository. -/

/-- Modelled from the spec: the matcher's normalization is case folding. -/
def foldChar (c : Char) : Char := c.toLower

/-- Case-folded character list. -/
def foldStr (s : List Char) : List Char := s.map foldChar

/-- Modelled from the spec: `fuzz.partial_ratio` attains its maximum possible
score (100) exactly when, after normalization, the shorter of the two strings
occurs as a contiguous substring of the longer one ("exact
substring-equivalence under the matcher's normalization, e.g. case
folding"). -/
def partialRatio100 (a b : List Char) : Bool :=
  let x := foldStr a
  let y := foldStr b
  if x.length ≤ y.length then containsSub x y else containsSub y x

/-- Acceptance test of line 93: the pair is a Match exactly when the partial
ratio is the maximum score 100. -/
def isMatch (payload manifestPayload : List Char) : Bool :=
  partialRatio100 payload manifestPayload

/-! ## The anchored date regular expressions (lines 36–46)

Each source pattern has the form `^tok (\s tok)*$` where every token is built
from digits, letters, `:`, `[`, `]` — characters that are never whitespace —
and each `\s` matches exactly one whitespace character.  Such a pattern holds
of `s` exactly when splitting `s` at every whitespace character yields the
corresponding token list, each token of the right shape; `splitOne` below
performs that split (note: it splits at each single whitespace character, so
two adjacent whitespace characters yield an empty token, which fails every
token-shape test, exactly as the regex would fail). -/

/-- Split a character list at every single whitespace character. -/
def splitOne : List Char → List (List Char)
  | [] => [[]]
  | c :: s =>
    if isSpaceChar c then [] :: splitOne s
    else
      match splitOne s with
      | [] => [[c]]
      | t :: ts => (c :: t) :: ts

/-- Token shape `[0-9]{lo,hi}`. -/
def isDigits (lo hi : Nat) (t : List Char) : Bool :=
  decide (lo ≤ t.length) && decide (t.length ≤ hi) && t.all isDigitChar

/-- Token shape `([a-z]{3}|[a-z]{3,9})` under the `i` flag (equivalently
`[a-z]{3,9}`, case-insensitive). -/
def isAlphaTok (lo hi : Nat) (t : List Char) : Bool :=
  decide (lo ≤ t.length) && decide (t.length ≤ hi) && t.all isAlphaChar

/-- Token shape `TBD` under the `i` flag. -/
def tbdTok (t : List Char) : Bool := foldStr t == ['t', 'b', 'd']

/-- Token shape `(early|mid|late)` under the `i` flag. -/
def vagueTok (t : List Char) : Bool :=
  foldStr t == cs "early" || foldStr t == cs "mid" || foldStr t == cs "late"

/-- Token shape `(\[[0-9]{2}:[0-9]{2}\]|[0-9]{2}:[0-9]{2})`. -/
def timeTok (t : List Char) : Bool :=
  match t with
  | [a, b, ':', d, e] =>
    isDigitChar a && isDigitChar b && isDigitChar d && isDigitChar e
  | ['[', a, b, ':', d, e, ']'] =>
    isDigitChar a && isDigitChar b && isDigitChar d && isDigitChar e
  | _ => false

/-- Source regex `hour` (line 36):
`^[0-9]{4}\s([a-z]{3}|[a-z]{3,9})\s[0-9]{1,2}\s(\[[0-9]{2}:[0-9]{2}\]|[0-9]{2}:[0-9]{2})$/i`. -/
def hour (s : List Char) : Bool :=
  match splitOne s with
  | [y, m, d, t] => isDigits 4 4 y && isAlphaTok 3 9 m && isDigits 1 2 d && timeTok t
  | _ => false

/-- Source regex `day` (line 37): `^[0-9]{4}\s([a-z]{3}|[a-z]{3,9})\s[0-9]{1,2}$/i`. -/
def day (s : List Char) : Bool :=
  match splitOne s with
  | [y, m, d] => isDigits 4 4 y && isAlphaTok 3 9 m && isDigits 1 2 d
  | _ => false

/-- Source regex `month` (line 38): `^[0-9]{4}\s([a-z]{3}|[a-z]{3,9})$/i`. -/
def month (s : List Char) : Bool :=
  match splitOne s with
  | [y, m] => isDigits 4 4 y && isAlphaTok 3 9 m
  | _ => false

/-- Source regex `year` (line 39): `^[0-9]{4}$/i`. -/
def year (s : List Char) : Bool :=
  match splitOne s with
  | [y] => isDigits 4 4 y
  | _ => false

/-- Source regex `year_tbd` (line 42): `^[0-9]{4}\sTBD$/i`. -/
def year_tbd (s : List Char) : Bool :=
  match splitOne s with
  | [y, t] => isDigits 4 4 y && tbdTok t
  | _ => false

/-- Source regex `month_tbd` (line 43): `^[0-9]{4}\s([a-z]{3}|[a-z]{3,9})\sTBD$/i`. -/
def month_tbd (s : List Char) : Bool :=
  match splitOne s with
  | [y, m, t] => isDigits 4 4 y && isAlphaTok 3 9 m && tbdTok t
  | _ => false

/-- Source regex `month_vague` (line 46):
`^[0-9]{4}\s(early|mid|late)\s([a-z]{3}|[a-z]{3,9})$/i`. -/
def month_vague (s : List Char) : Bool :=
  match splitOne s with
  | [y, v, m] => isDigits 4 4 y && vagueTok v && isAlphaTok 3 9 m
  | _ => false

/-! ## Spec-side pattern families

The code has no dedicated quarter or half regex — it tests raw substring
containment of `Q` / `H1` / `H2` — so the corresponding pattern FAMILIES of
the spec's cascade table are modelled from the spec. -/

/-- Modelled from the spec: the quarter pattern family `YYYY Q<n>`
(for example `2020 Q3`). -/
def quarterFam : List Char → Bool
  | [a, b, c, d, w, q, n] =>
    isDigitChar a && isDigitChar b && isDigitChar c && isDigitChar d &&
      isSpaceChar w && (q == 'Q') && isDigitChar n
  | _ => false

/-- Modelled from the spec: the half pattern family `YYYY H1`. -/
def halfFam1 : List Char → Bool
  | [a, b, c, d, w, h, o] =>
    isDigitChar a && isDigitChar b && isDigitChar c && isDigitChar d &&
      isSpaceChar w && (h == 'H') && (o == '1')
  | _ => false

/-- Modelled from the spec: the half pattern family `YYYY H2`. -/
def halfFam2 : List Char → Bool
  | [a, b, c, d, w, h, o] =>
    isDigitChar a && isDigitChar b && isDigitChar c && isDigitChar d &&
      isSpaceChar w && (h == 'H') && (o == '2')
  | _ => false

/-! ## The date classification cascade (lines 98–153) -/

/-- Precision tier stored in `tentative_max_precision`. -/
inductive Tier where
  | hour | day | month | quarter | half | year
deriving DecidableEq, Repr

/-- Which branch of the if/else cascade fired (the instrumentation lets a
theorem distinguish branches that happen to produce identical flags). -/
inductive Branch where
  | bQ | bH1 | bH2 | bYearTbd | bYear | bMonthTbd | bMonthVague | bMonth | bDay | bHour
deriving DecidableEq, Repr

/-- Result of one pass through the cascade: which branch fired, the precision
tier it stores, and the two certainty flags it assigns. -/
structure Classified where
  branch : Branch
  tier : Tier
  tbd : Bool
  is_tentative : Bool
deriving DecidableEq, Repr

/-- The classification cascade of lines 98–153, in source branch order.  The
first two tests are raw substring tests (`mdate.includes('Q')`,
`mdate.includes('H1')`, `mdate.includes('H2')`); the rest are the anchored
regexes.  (The `replace` rewriting of `mdate` inside the `Q`/`H1`/`H2`
branches is dead for every claim: the later date parsing re-reads the
original `manifest_dates[manifest_index]` string, line 158.)  The final
`else` branch (line 150) logs and returns, producing no classification. -/
def classify (mdate : List Char) : Option Classified :=
  if mdate.contains 'Q' then some ⟨Branch.bQ, Tier.quarter, true, true⟩
  else if containsSub ['H', '1'] mdate then some ⟨Branch.bH1, Tier.half, true, true⟩
  else if containsSub ['H', '2'] mdate then some ⟨Branch.bH2, Tier.half, true, true⟩
  else if year_tbd mdate then some ⟨Branch.bYearTbd, Tier.year, true, true⟩
  else if year mdate then some ⟨Branch.bYear, Tier.year, true, true⟩
  else if month_tbd mdate then some ⟨Branch.bMonthTbd, Tier.month, true, true⟩
  else if month_vague mdate then some ⟨Branch.bMonthVague, Tier.month, true, true⟩
  else if month mdate then some ⟨Branch.bMonth, Tier.month, true, true⟩
  else if day mdate then some ⟨Branch.bDay, Tier.day, false, true⟩
  else if hour mdate then some ⟨Branch.bHour, Tier.hour, false, false⟩
  else none

/-! ## Timezone and launchpad resolution -/

/-- Timezone selection of lines 171–177, keyed on the INTERNAL record's
`launch_site.site_id` (the `location` variable, set from `sites[payload_index]`
on line 157). -/
def timeZoneFor (loc : String) : String :=
  if loc = "ccafs_slc_40" ∨ loc = "ksc_lc_39a" ∨ loc = "ccafs_lc_13" then
    "America/New_York"
  else if loc = "vafb_slc_4e" ∨ loc = "vafb_slc_4w" then
    "America/Los_Angeles"
  else
    "America/Chicago"

/-- The fixed launchpad-label table (lines 188–204): the exact labels that
resolve to a site. -/
def padTable : List String :=
  ["SLC-40", "SLC-40 / LC-39A", "SLC-40 / BC",
   "LC-39A", "LC-39A / BC", "LC-39A / SLC-40",
   "SLC-4E",
   "BC", "BC / LC-39A", "BC / SLC-40"]

/-- Launchpad resolution of lines 183–204: exact-string comparison against the
fixed table; an unrecognized label leaves all three site fields `null`. -/
def resolveLaunchpad (pad : String) : Option (String × String × String) :=
  if pad = "SLC-40" ∨ pad = "SLC-40 / LC-39A" ∨ pad = "SLC-40 / BC" then
    some ("ccafs_slc_40", "CCAFS SLC 40",
      "Cape Canaveral Air Force Station Space Launch Complex 40")
  else if pad = "LC-39A" ∨ pad = "LC-39A / BC" ∨ pad = "LC-39A / SLC-40" then
    some ("ksc_lc_39a", "KSC LC 39A",
      "Kennedy Space Center Historic Launch Complex 39A")
  else if pad = "SLC-4E" then
    some ("vafb_slc_4e", "VAFB SLC 4E",
      "Vandenberg Air Force Base Space Launch Complex 4E")
  else if pad = "BC" ∨ pad = "BC / LC-39A" ∨ pad = "BC / SLC-40" then
    some ("stls", "STLS", "SpaceX South Texas Launch Site")
  else
    none

/-! ## The pipeline -/

/-- One internal upcoming record, projected to the two fields the script reads
(lines 66–69): the first payload id and the launch-site id. -/
structure Launch where
  payload : List Char
  site : String
deriving DecidableEq, Repr

/-- One manifest row, projected to the three parallel-array entries the script
extracts for a manifest index (lines 80–86): date text, payload label,
launchpad label. -/
structure ManifestRow where
  mdate : List Char
  mpayload : List Char
  mpad : String
deriving DecidableEq, Repr

/-- The `$set` document built on lines 207–220, restricted to the fields the
claims are about; the moment-computed instant fields (`launch_year`,
`launch_date_unix`, `launch_date_utc`) are abstracted, and
`launch_date_local` is represented by the timezone name chosen for it. -/
structure UpdateRecord where
  payload : List Char
  flight_number : Int
  launch_local_zone : String
  is_tentative : Bool
  tentative_max_precision : Tier
  tbd : Bool
  site_id : Option String
  site_name : Option String
  site_name_long : Option String
deriving DecidableEq, Repr

/-- Base flight number (lines 62–63): one more than the first entry of the
non-upcoming records sorted by descending flight number.  `none` models the
crash on an empty history. -/
def base_flight_number (pastSortedDesc : List Int) : Option Int :=
  match pastSortedDesc with
  | [] => none
  | x :: _ => some (x + 1)

/-- Processing of one (payload, manifest row) pair, i.e. one iteration of the
inner loop (lines 91–226): fuzzy acceptance at score 100, then the date
cascade (a failed classification skips the row: line 152 `return`), then the
flight-number push (line 180) and the update document (lines 207–225).
Returns the pushed flight number together with the update submitted for the
pair, or `none` when the pair contributes nothing. -/
def processPair (base : Int) (payload : List Char) (site : String) (mIdx : Nat)
    (row : ManifestRow) : Option (Int × UpdateRecord) :=
  if isMatch payload row.mpayload then
    match classify row.mdate with
    | none => none
    | some c =>
      let resolved := resolveLaunchpad row.mpad
      some (base + mIdx,
        ⟨payload, base + mIdx, timeZoneFor site, c.is_tentative, c.tier, c.tbd,
          resolved.map (fun p => p.1),
          resolved.map (fun p => p.2.1),
          resolved.map (fun p => p.2.2)⟩)
  else none

/-- Inner loop over the manifest rows for one payload, carrying the manifest
index explicitly. -/
def runRowFrom (base : Int) (payload : List Char) (site : String) (i : Nat) :
    List ManifestRow → List (Int × UpdateRecord)
  | [] => []
  | r :: rs =>
    match processPair base payload site i r with
    | none => runRowFrom base payload site (i + 1) rs
    | some p => p :: runRowFrom base payload site (i + 1) rs

/-- Matches contributed by one internal payload (one iteration of the outer
loop of line 91). -/
def runPayload (base : Int) (pl : Launch) (rows : List ManifestRow) :
    List (Int × UpdateRecord) :=
  runRowFrom base pl.payload pl.site 0 rows

/-- The full double loop: `payloads.forEach` outside, `manifest_payloads.forEach`
inside.  The produced list carries, in push order, the flight numbers
(`flight_numbers` array) paired with the update documents (`promises` array). -/
def runAll (base : Int) (launches : List Launch) (rows : List ManifestRow) :
    List (Int × UpdateRecord) :=
  launches.flatMap (fun pl => runPayload base pl rows)

/-- The final per-row report of lines 240–246: the result at position `index`
is labelled with `payloads[index]`.  Each report row pairs the label printed
with the payload the settled update actually belonged to. -/
def reportFrom (payloads : List (List Char)) (k : Nat) :
    List (List Char) → List (Option (List Char) × List Char)
  | [] => []
  | s :: ss => (payloads.get? k, s) :: reportFrom payloads (k + 1) ss

/-- Terminal state of one run: the exit signal, the updates actually executed
against the store, and the final per-row report. -/
structure RunResult where
  exit_code : Nat
  submitted : List UpdateRecord
  reportRows : List (Option (List Char) × List Char)
deriving DecidableEq, Repr

/-- The tail of the script (lines 230–246).  Modelled from the spec: the
`col.updateOne` calls are handed to the external store only when
`Promise.all(promises)` is awaited (spec §4.5 step 7, §6 Outcome), so a run
that fails the duplicate-flight-number check (line 231) exits with code 1
having submitted nothing, and a passing run submits every update and then
reports, labelling the result at position `index` with `payloads[index]`. -/
def scriptRun (base : Int) (launches : List Launch) (rows : List ManifestRow) :
    RunResult :=
  let out := runAll base launches rows
  let fns := out.map Prod.fst
  if fns.dedup.length < fns.length then
    ⟨1, [], []⟩
  else
    ⟨0, out.map Prod.snd,
      reportFrom (launches.map Launch.payload) 0 (out.map (fun p => p.2.payload))⟩

/-! ## Helper lemmas: substring containment -/

theorem containsSub_length {n h : List Char} (hc : containsSub n h = true) :
    n.length ≤ h.length := by
  induction h with
  | nil =>
    have : n = [] := by simpa [containsSub, List.isEmpty_iff] using hc
    simp [this]
  | cons c rest ih =>
    rcases (by simpa [containsSub] using hc :
        n <+: c :: rest ∨ containsSub n rest = true) with hp | hp
    · simpa using hp.length_le
    · exact le_trans (ih hp) (by simp)

theorem containsSub_eq_of_length {n h : List Char} (hc : containsSub n h = true)
    (hl : n.length = h.length) : n = h := by
  cases h with
  | nil => simpa [containsSub, List.isEmpty_iff] using hc
  | cons c rest =>
    rcases (by simpa [containsSub] using hc :
        n <+: c :: rest ∨ containsSub n rest = true) with hp | hp
    · exact hp.eq_of_length hl
    · have := containsSub_length hp
      simp at hl
      omega

theorem containsSub_head_mem {x : Char} {r s : List Char}
    (hc : containsSub (x :: r) s = true) : x ∈ s := by
  induction s with
  | nil => simp [containsSub] at hc
  | cons c rest ih =>
    rcases (by simpa [containsSub] using hc :
        (x = c ∧ r <+: rest) ∨ containsSub (x :: r) rest = true) with ⟨rfl, -⟩ | hp
    · exact List.mem_cons_self _ _
    · exact List.mem_cons_of_mem _ (ih hp)

theorem containsSub_eq_false_of_not_mem {x : Char} {r s : List Char} (h : ¬ x ∈ s) :
    containsSub (x :: r) s = false := by
  cases hc : containsSub (x :: r) s
  · rfl
  · exact absurd (containsSub_head_mem hc) h

/-! ## Helper lemmas: character classes and `contains` -/

theorem class_beq_false {p : Char → Bool} {a c : Char} (hc : p c = true)
    (ha : p a = false) : (a == c) = false := by
  cases hac : a == c with
  | false => rfl
  | true =>
    have h : a = c := eq_of_beq hac
    rw [← h, ha] at hc
    cases hc

theorem not_mem_of_all {p : Char → Bool} {x : Char} {l : List Char}
    (hl : l.all p = true) (hx : p x = false) : ¬ x ∈ l := by
  intro hm
  rw [List.all_eq_true] at hl
  rw [hl x hm] at hx
  cases hx

theorem contains_eq_false_of_not_mem {x : Char} {l : List Char} (h : ¬ x ∈ l) :
    l.contains x = false := by
  cases hc : l.contains x
  · rfl
  · exact absurd (List.elem_iff.1 hc) h

theorem digitChar_not_alpha {c : Char} (h : isDigitChar c = true) : isAlphaChar c = false := by
  simp [isDigitChar] at h
  simp [isAlphaChar]
  omega

/-! ## Helper lemmas: `splitOne` -/

theorem splitOne_ne_nil (s : List Char) : splitOne s ≠ [] := by
  cases s with
  | nil => simp [splitOne]
  | cons c rest =>
    by_cases hw : isSpaceChar c = true
    · simp [splitOne, hw]
    · simp only [splitOne, hw]
      cases h : splitOne rest <;> simp

theorem splitOne_single {s t : List Char} (h : splitOne s = [t]) : s = t := by
  induction s generalizing t with
  | nil =>
    simp [splitOne] at h
    simp [h]
  | cons c rest ih =>
    by_cases hw : isSpaceChar c = true
    · rw [splitOne, if_pos hw] at h
      have h2 := (List.cons_eq_cons.1 h).2
      exact absurd h2 (splitOne_ne_nil rest)
    · rw [splitOne, if_neg hw] at h
      cases hr : splitOne rest with
      | nil => exact absurd hr (splitOne_ne_nil rest)
      | cons u us =>
        rw [hr] at h
        rcases List.cons_eq_cons.1 h with ⟨h1, h2⟩
        have hus : us = [] := by simpa using congrArg List.length h2
        have : rest = u := ih (by rw [hr, hus])
        rw [← h1, this]

theorem splitOne_pair {s u v : List Char} (h : splitOne s = [u, v]) :
    ∃ w, isSpaceChar w = true ∧ s = u ++ w :: v := by
  induction s generalizing u v with
  | nil => simp [splitOne] at h
  | cons c rest ih =>
    by_cases hw : isSpaceChar c = true
    · rw [splitOne, if_pos hw] at h
      rcases List.cons_eq_cons.1 h with ⟨h1, h2⟩
      have := splitOne_single h2
      exact ⟨c, hw, by rw [← h1, ← this]; rfl⟩
    · rw [splitOne, if_neg hw] at h
      cases hr : splitOne rest with
      | nil => exact absurd hr (splitOne_ne_nil rest)
      | cons t ts =>
        rw [hr] at h
        rcases List.cons_eq_cons.1 h with ⟨h1, h2⟩
        rcases ih (by rw [hr, h2]) with ⟨w, hw2, hs⟩
        exact ⟨w, hw2, by rw [← h1]; simp [hs]⟩

/-! ## Helper lemmas: token shapes -/

theorem isDigits_facts {lo hi : Nat} {d : List Char} (h : isDigits lo hi d = true) :
    lo ≤ d.length ∧ d.length ≤ hi ∧ ∀ c ∈ d, isDigitChar c = true := by
  simp [isDigits, List.all_eq_true] at h
  exact ⟨h.1.1, h.1.2, h.2⟩

theorem alphaTok_false_of_short {lo hi : Nat} {d : List Char} (h : d.length < lo) :
    isAlphaTok lo hi d = false := by
  have hA : decide (lo ≤ d.length) = false := by simp; omega
  simp [isAlphaTok, hA]

theorem alphaTok_false_of_digit_head {lo hi : Nat} {c : Char} {d : List Char}
    (h : isDigitChar c = true) : isAlphaTok lo hi (c :: d) = false := by
  have : (c :: d).all isAlphaChar = false := by
    simp [List.all_cons, digitChar_not_alpha h]
  simp [isAlphaTok, this]

theorem tbdTok_false_of_length {d : List Char} (h : d.length ≠ 3) : tbdTok d = false := by
  cases ht : tbdTok d
  · rfl
  · have he : foldStr d = ['t', 'b', 'd'] := by simpa [tbdTok] using ht
    have := congrArg List.length he
    simp [foldStr] at this
    exact absurd this h

/-! ## Helper lemmas: the classification cascade, branch by branch -/

theorem classify_of_Q {s : List Char} (h : s.contains 'Q' = true) :
    classify s = some ⟨Branch.bQ, Tier.quarter, true, true⟩ := by
  have hm : 'Q' ∈ s := by simpa using h
  simp [classify, hm]

theorem classify_of_H1 {s : List Char} (hq : s.contains 'Q' = false)
    (h1 : containsSub ['H', '1'] s = true) :
    classify s = some ⟨Branch.bH1, Tier.half, true, true⟩ := by
  have hm : 'Q' ∉ s := by simpa using hq
  simp [classify, hm, h1]

theorem classify_of_H2 {s : List Char} (hq : s.contains 'Q' = false)
    (h1 : containsSub ['H', '1'] s = false) (h2 : containsSub ['H', '2'] s = true) :
    classify s = some ⟨Branch.bH2, Tier.half, true, true⟩ := by
  have hm : 'Q' ∉ s := by simpa using hq
  simp [classify, hm, h1, h2]

theorem classify_of_year_tbd {s : List Char} (hq : s.contains 'Q' = false)
    (h1 : containsSub ['H', '1'] s = false) (h2 : containsSub ['H', '2'] s = false)
    (hy : year_tbd s = true) :
    classify s = some ⟨Branch.bYearTbd, Tier.year, true, true⟩ := by
  have hm : 'Q' ∉ s := by simpa using hq
  simp [classify, hm, h1, h2, hy]

theorem year_shape {s : List Char} (h : year s = true) :
    ∃ y, splitOne s = [y] ∧ isDigits 4 4 y = true := by
  unfold year at h
  rcases hsp : splitOne s with _ | ⟨y, _ | ⟨z, zs⟩⟩ <;> rw [hsp] at h
  · exact (Bool.false_ne_true h).elim
  · exact ⟨y, rfl, h⟩
  · exact (Bool.false_ne_true h).elim

theorem classify_of_year {s : List Char} (hq : s.contains 'Q' = false)
    (h1 : containsSub ['H', '1'] s = false) (h2 : containsSub ['H', '2'] s = false)
    (hy : year s = true) :
    classify s = some ⟨Branch.bYear, Tier.year, true, true⟩ := by
  obtain ⟨y, hsp, -⟩ := year_shape hy
  have hyt : year_tbd s = false := by unfold year_tbd; rw [hsp]
  have hm : 'Q' ∉ s := by simpa using hq
  simp [classify, hm, h1, h2, hyt, hy]

theorem year_tbd_shape {s : List Char} (h : year_tbd s = true) :
    ∃ y t, splitOne s = [y, t] ∧ isDigits 4 4 y = true ∧ tbdTok t = true := by
  unfold year_tbd at h
  rcases hsp : splitOne s with _ | ⟨y, _ | ⟨t, _ | ⟨z, zs⟩⟩⟩ <;> rw [hsp] at h
  · exact (Bool.false_ne_true h).elim
  · exact (Bool.false_ne_true h).elim
  · have h2 := (by simpa using h : isDigits 4 4 y = true ∧ tbdTok t = true)
    exact ⟨y, t, rfl, h2.1, h2.2⟩
  · exact (Bool.false_ne_true h).elim

theorem month_tbd_shape {s : List Char} (h : month_tbd s = true) :
    ∃ y m t, splitOne s = [y, m, t] ∧ isDigits 4 4 y = true ∧
      isAlphaTok 3 9 m = true ∧ tbdTok t = true := by
  unfold month_tbd at h
  rcases hsp : splitOne s with _ | ⟨y, _ | ⟨m, _ | ⟨t, _ | ⟨z, zs⟩⟩⟩⟩ <;> rw [hsp] at h
  · exact (Bool.false_ne_true h).elim
  · exact (Bool.false_ne_true h).elim
  · exact (Bool.false_ne_true h).elim
  · have h2 := (by simpa [and_assoc] using h :
      isDigits 4 4 y = true ∧ isAlphaTok 3 9 m = true ∧ tbdTok t = true)
    exact ⟨y, m, t, rfl, h2.1, h2.2.1, h2.2.2⟩
  · exact (Bool.false_ne_true h).elim

theorem classify_of_month_tbd {s : List Char} (hq : s.contains 'Q' = false)
    (h1 : containsSub ['H', '1'] s = false) (h2 : containsSub ['H', '2'] s = false)
    (hm : month_tbd s = true) :
    classify s = some ⟨Branch.bMonthTbd, Tier.month, true, true⟩ := by
  obtain ⟨y, m, t, hsp, -, -, -⟩ := month_tbd_shape hm
  have hyt : year_tbd s = false := by unfold year_tbd; rw [hsp]
  have hy : year s = false := by unfold year; rw [hsp]
  have hmem : 'Q' ∉ s := by simpa using hq
  simp [classify, hmem, h1, h2, hyt, hy, hm]

theorem day_shape {s : List Char} (h : day s = true) :
    ∃ y m d, splitOne s = [y, m, d] ∧ isDigits 4 4 y = true ∧
      isAlphaTok 3 9 m = true ∧ isDigits 1 2 d = true := by
  unfold day at h
  rcases hsp : splitOne s with _ | ⟨y, _ | ⟨m, _ | ⟨d, _ | ⟨z, zs⟩⟩⟩⟩ <;> rw [hsp] at h
  · exact (Bool.false_ne_true h).elim
  · exact (Bool.false_ne_true h).elim
  · exact (Bool.false_ne_true h).elim
  · have h2 := (by simpa [and_assoc] using h :
      isDigits 4 4 y = true ∧ isAlphaTok 3 9 m = true ∧ isDigits 1 2 d = true)
    exact ⟨y, m, d, rfl, h2.1, h2.2.1, h2.2.2⟩
  · exact (Bool.false_ne_true h).elim

theorem classify_of_day {s : List Char} (hq : s.contains 'Q' = false)
    (h1 : containsSub ['H', '1'] s = false) (h2 : containsSub ['H', '2'] s = false)
    (hd : day s = true) :
    classify s = some ⟨Branch.bDay, Tier.day, false, true⟩ := by
  obtain ⟨y, m, d, hsp, hy4, hm39, hd12⟩ := day_shape hd
  have hyt : year_tbd s = false := by unfold year_tbd; rw [hsp]
  have hy : year s = false := by unfold year; rw [hsp]
  have hdlen : d.length ≤ 2 := (isDigits_facts hd12).2.1
  have hmt : month_tbd s = false := by
    unfold month_tbd
    rw [hsp]
    have ht : tbdTok d = false := @tbdTok_false_of_length d (by omega)
    simp [ht]
  have hmv : month_vague s = false := by
    unfold month_vague
    rw [hsp]
    rcases d with _ | ⟨c, d0⟩
    · have := (isDigits_facts hd12).1
      simp at this
    · have hc : isDigitChar c = true := (isDigits_facts hd12).2.2 c (by simp)
      simp [alphaTok_false_of_digit_head hc]
  have hmo : month s = false := by unfold month; rw [hsp]
  have hmem : 'Q' ∉ s := by simpa using hq
  simp [classify, hmem, h1, h2, hyt, hy, hmt, hmv, hmo, hd]

theorem hour_shape {s : List Char} (h : hour s = true) :
    ∃ y m d t, splitOne s = [y, m, d, t] ∧ isDigits 4 4 y = true ∧
      isAlphaTok 3 9 m = true ∧ isDigits 1 2 d = true ∧ timeTok t = true := by
  unfold hour at h
  rcases hsp : splitOne s with _ | ⟨y, _ | ⟨m, _ | ⟨d, _ | ⟨t, _ | ⟨z, zs⟩⟩⟩⟩⟩ <;> rw [hsp] at h
  · exact (Bool.false_ne_true h).elim
  · exact (Bool.false_ne_true h).elim
  · exact (Bool.false_ne_true h).elim
  · exact (Bool.false_ne_true h).elim
  · have h2 := (by simpa [and_assoc] using h : isDigits 4 4 y = true ∧ isAlphaTok 3 9 m = true ∧
      isDigits 1 2 d = true ∧ timeTok t = true)
    exact ⟨y, m, d, t, rfl, h2.1, h2.2.1, h2.2.2.1, h2.2.2.2⟩
  · exact (Bool.false_ne_true h).elim

theorem classify_of_hour {s : List Char} (hq : s.contains 'Q' = false)
    (h1 : containsSub ['H', '1'] s = false) (h2 : containsSub ['H', '2'] s = false)
    (hh : hour s = true) :
    classify s = some ⟨Branch.bHour, Tier.hour, false, false⟩ := by
  obtain ⟨y, m, d, t, hsp, -, -, -, -⟩ := hour_shape hh
  have hyt : year_tbd s = false := by unfold year_tbd; rw [hsp]
  have hy : year s = false := by unfold year; rw [hsp]
  have hmt : month_tbd s = false := by unfold month_tbd; rw [hsp]
  have hmv : month_vague s = false := by unfold month_vague; rw [hsp]
  have hmo : month s = false := by unfold month; rw [hsp]
  have hda : day s = false := by unfold day; rw [hsp]
  have hmem : 'Q' ∉ s := by simpa using hq
  simp [classify, hmem, h1, h2, hyt, hy, hmt, hmv, hmo, hda, hh]

/-! ## Helper lemmas: the spec-modelled pattern families through the cascade -/

theorem class_ne {p : Char → Bool} {a c : Char} (hc : p c = true) (ha : p a = false) :
    a ≠ c := by
  intro he
  rw [he, hc] at ha
  cases ha

theorem tbd_chars {t : List Char} (ht : tbdTok t = true) {x : Char} (hx : x ∈ t) :
    x.toLower = 't' ∨ x.toLower = 'b' ∨ x.toLower = 'd' := by
  have he : foldStr t = ['t', 'b', 'd'] := by simpa [tbdTok] using ht
  have hm : x.toLower ∈ foldStr t := List.mem_map_of_mem foldChar hx
  rw [he] at hm
  simpa using hm

theorem quarterFam_classify {s : List Char} (h : quarterFam s = true) :
    classify s = some ⟨Branch.bQ, Tier.quarter, true, true⟩ := by
  rcases s with _ | ⟨a, _ | ⟨b, _ | ⟨c, _ | ⟨d, _ | ⟨w, _ | ⟨q, _ | ⟨n, _ | ⟨x, xs⟩⟩⟩⟩⟩⟩⟩⟩ <;>
    first
    | exact (Bool.false_ne_true h).elim
    | skip
  have hh := (by simpa [quarterFam, and_assoc] using h :
    isDigitChar a = true ∧ isDigitChar b = true ∧ isDigitChar c = true ∧
      isDigitChar d = true ∧ isSpaceChar w = true ∧ q = 'Q' ∧ isDigitChar n = true)
  apply classify_of_Q
  simp [hh.2.2.2.2.2.1]

theorem halfFam1_classify {s : List Char} (h : halfFam1 s = true) :
    classify s = some ⟨Branch.bH1, Tier.half, true, true⟩ := by
  rcases s with _ | ⟨a, _ | ⟨b, _ | ⟨c, _ | ⟨d, _ | ⟨w, _ | ⟨hc, _ | ⟨o, _ | ⟨x, xs⟩⟩⟩⟩⟩⟩⟩⟩ <;>
    first
    | exact (Bool.false_ne_true h).elim
    | skip
  obtain ⟨q1, q2, q3, q4, q5, rfl, rfl⟩ := (by simpa [halfFam1, and_assoc] using h :
    isDigitChar a = true ∧ isDigitChar b = true ∧ isDigitChar c = true ∧
      isDigitChar d = true ∧ isSpaceChar w = true ∧ hc = 'H' ∧ o = '1')
  have hq : ([a, b, c, d, w, 'H', '1']).contains 'Q' = false := by
    apply contains_eq_false_of_not_mem
    intro hm
    rcases (by simpa using hm : 'Q' = a ∨ 'Q' = b ∨ 'Q' = c ∨ 'Q' = d ∨ 'Q' = w) with
      h' | h' | h' | h' | h'
    · rw [← h'] at q1; exact absurd q1 (by decide)
    · rw [← h'] at q2; exact absurd q2 (by decide)
    · rw [← h'] at q3; exact absurd q3 (by decide)
    · rw [← h'] at q4; exact absurd q4 (by decide)
    · rw [← h'] at q5; exact absurd q5 (by decide)
  have h1 : containsSub ['H', '1'] [a, b, c, d, w, 'H', '1'] = true := by
    simp [containsSub, List.isPrefixOf]
  exact classify_of_H1 hq h1

theorem halfFam2_classify {s : List Char} (h : halfFam2 s = true) :
    classify s = some ⟨Branch.bH2, Tier.half, true, true⟩ := by
  rcases s with _ | ⟨a, _ | ⟨b, _ | ⟨c, _ | ⟨d, _ | ⟨w, _ | ⟨hc, _ | ⟨o, _ | ⟨x, xs⟩⟩⟩⟩⟩⟩⟩⟩ <;>
    first
    | exact (Bool.false_ne_true h).elim
    | skip
  obtain ⟨q1, q2, q3, q4, q5, rfl, rfl⟩ := (by simpa [halfFam2, and_assoc] using h :
    isDigitChar a = true ∧ isDigitChar b = true ∧ isDigitChar c = true ∧
      isDigitChar d = true ∧ isSpaceChar w = true ∧ hc = 'H' ∧ o = '2')
  have hq : ([a, b, c, d, w, 'H', '2']).contains 'Q' = false := by
    apply contains_eq_false_of_not_mem
    intro hm
    rcases (by simpa using hm : 'Q' = a ∨ 'Q' = b ∨ 'Q' = c ∨ 'Q' = d ∨ 'Q' = w) with
      h' | h' | h' | h' | h'
    · rw [← h'] at q1; exact absurd q1 (by decide)
    · rw [← h'] at q2; exact absurd q2 (by decide)
    · rw [← h'] at q3; exact absurd q3 (by decide)
    · rw [← h'] at q4; exact absurd q4 (by decide)
    · rw [← h'] at q5; exact absurd q5 (by decide)
  have f1 : ('H' == a) = false := class_beq_false q1 (by decide)
  have f2 : ('H' == b) = false := class_beq_false q2 (by decide)
  have f3 : ('H' == c) = false := class_beq_false q3 (by decide)
  have f4 : ('H' == d) = false := class_beq_false q4 (by decide)
  have f5 : ('H' == w) = false := class_beq_false q5 (by decide)
  have h1 : containsSub ['H', '1'] [a, b, c, d, w, 'H', '2'] = false := by
    simp [containsSub, List.isPrefixOf, f1, f2, f3, f4, f5]
  have h2 : containsSub ['H', '2'] [a, b, c, d, w, 'H', '2'] = true := by
    simp [containsSub, List.isPrefixOf]
  exact classify_of_H2 hq h1 h2

theorem no_Q_H_of_digits_space_tbd {y t : List Char} {w : Char}
    (hy : ∀ c ∈ y, isDigitChar c = true) (hw : isSpaceChar w = true)
    (ht : tbdTok t = true) :
    ¬ 'Q' ∈ y ++ w :: t ∧ ¬ 'H' ∈ y ++ w :: t := by
  constructor <;>
  · intro hm
    rcases List.mem_append.1 hm with hm | hm
    · have := hy _ hm
      exact absurd this (by decide)
    · rcases List.mem_cons.1 hm with he | hm
      · rw [← he] at hw
        exact absurd hw (by decide)
      · rcases tbd_chars ht hm with h' | h' | h' <;> exact absurd h' (by decide)

theorem year_tbd_classify {s : List Char} (h : year_tbd s = true) :
    classify s = some ⟨Branch.bYearTbd, Tier.year, true, true⟩ := by
  obtain ⟨y, t, hsp, hy, ht⟩ := year_tbd_shape h
  obtain ⟨w, hw, hs⟩ := splitOne_pair hsp
  subst hs
  obtain ⟨hQ, hH⟩ := no_Q_H_of_digits_space_tbd (isDigits_facts hy).2.2 hw ht
  exact classify_of_year_tbd (contains_eq_false_of_not_mem hQ)
    (containsSub_eq_false_of_not_mem hH) (containsSub_eq_false_of_not_mem hH) h

theorem year_classify {s : List Char} (h : year s = true) :
    classify s = some ⟨Branch.bYear, Tier.year, true, true⟩ := by
  obtain ⟨y, hsp, hy⟩ := year_shape h
  have hs := splitOne_single hsp
  have hQ : ¬ 'Q' ∈ s := by
    rw [hs]
    intro hm
    exact absurd ((isDigits_facts hy).2.2 _ hm) (by decide)
  have hH : ¬ 'H' ∈ s := by
    rw [hs]
    intro hm
    exact absurd ((isDigits_facts hy).2.2 _ hm) (by decide)
  exact classify_of_year (contains_eq_false_of_not_mem hQ)
    (containsSub_eq_false_of_not_mem hH) (containsSub_eq_false_of_not_mem hH) h

theorem month_tbd_not_month {s : List Char} (h : month_tbd s = true) : month s = false := by
  obtain ⟨y, m, t, hsp, -, -, -⟩ := month_tbd_shape h
  unfold month
  rw [hsp]

/-! ## Helper lemmas: the matcher -/

theorem isMatch_trailing {s : List Char} {c d : Char} (h : c.toLower ≠ d.toLower) :
    isMatch (s ++ [c]) (s ++ [d]) = false := by
  unfold isMatch partialRatio100
  have hlen : (foldStr (s ++ [c])).length ≤ (foldStr (s ++ [d])).length := by
    simp [foldStr]
  rw [if_pos hlen]
  cases hc : containsSub (foldStr (s ++ [c])) (foldStr (s ++ [d]))
  · rfl
  · have he := containsSub_eq_of_length hc (by simp [foldStr])
    simp [foldStr, foldChar] at he
    exact absurd he h

theorem processPair_isMatch {base : Int} {payload : List Char} {site : String} {i : Nat}
    {row : ManifestRow} {p : Int × UpdateRecord}
    (h : processPair base payload site i row = some p) :
    isMatch payload row.mpayload = true := by
  cases hm : isMatch payload row.mpayload
  · rw [processPair, if_neg (by simp [hm])] at h
    cases h
  · rfl

/-! ## Helper lemmas: per-pair processing -/

theorem processPair_some {base : Int} {payload : List Char} {site : String} {i : Nat}
    {row : ManifestRow} {c : Classified}
    (hm : isMatch payload row.mpayload = true) (hc : classify row.mdate = some c) :
    processPair base payload site i row = some (base + i,
      ⟨payload, base + i, timeZoneFor site, c.is_tentative, c.tier, c.tbd,
        (resolveLaunchpad row.mpad).map (fun p => p.1),
        (resolveLaunchpad row.mpad).map (fun p => p.2.1),
        (resolveLaunchpad row.mpad).map (fun p => p.2.2)⟩) := by
  rw [processPair, if_pos (by simp [hm]), hc]

theorem processPair_fields {base : Int} {payload : List Char} {site : String} {i : Nat}
    {row : ManifestRow} {n : Int} {u : UpdateRecord}
    (h : processPair base payload site i row = some (n, u)) :
    n = base + i ∧ u.flight_number = base + i ∧ u.launch_local_zone = timeZoneFor site ∧
      u.payload = payload := by
  cases hm : isMatch payload row.mpayload
  · rw [processPair, if_neg (by simp [hm])] at h
    cases h
  · cases hc : classify row.mdate with
    | none =>
      rw [processPair, if_pos (by simp [hm]), hc] at h
      cases h
    | some c =>
      rw [processPair_some hm hc] at h
      rcases Prod.mk.injEq .. ▸ (Option.some.injEq _ _ ▸ h) with ⟨h1, h2⟩
      subst h1
      rw [← h2]
      exact ⟨rfl, rfl, rfl, rfl⟩

theorem processPair_none_of_classify_none {base : Int} {payload : List Char} {site : String}
    {i : Nat} {row : ManifestRow} (hc : classify row.mdate = none) :
    processPair base payload site i row = none := by
  cases hm : isMatch payload row.mpayload
  · rw [processPair, if_neg (by simp [hm])]
  · rw [processPair, if_pos (by simp [hm]), hc]

/-! ## Helper lemmas: the inner loop -/

theorem runRowFrom_append (base : Int) (payload : List Char) (site : String)
    (i : Nat) (l1 l2 : List ManifestRow) :
    runRowFrom base payload site i (l1 ++ l2) =
      runRowFrom base payload site i l1 ++ runRowFrom base payload site (i + l1.length) l2 := by
  induction l1 generalizing i with
  | nil => simp [runRowFrom]
  | cons r rs ih =>
    have he : i + 1 + rs.length = i + (r :: rs).length := by simp; omega
    rw [List.cons_append, runRowFrom, runRowFrom]
    cases processPair base payload site i r with
    | none => rw [ih (i + 1), he]
    | some p => rw [ih (i + 1), he]; simp

theorem runRowFrom_skip (base : Int) (payload : List Char) (site : String)
    (i : Nat) (bad : ManifestRow) (l2 : List ManifestRow)
    (hc : classify bad.mdate = none) :
    runRowFrom base payload site i (bad :: l2) = runRowFrom base payload site (i + 1) l2 := by
  rw [runRowFrom, processPair_none_of_classify_none hc]

theorem runRowFrom_payloads (base : Int) (payload : List Char) (site : String)
    (i : Nat) (rows : List ManifestRow) :
    (runRowFrom base payload site i rows).map (fun x => x.2.payload) =
      List.replicate (runRowFrom base payload site i rows).length payload := by
  induction rows generalizing i with
  | nil => simp [runRowFrom]
  | cons r rs ih =>
    rw [runRowFrom]
    cases hp : processPair base payload site i r with
    | none => exact ih (i + 1)
    | some p =>
      have hu := (@processPair_fields base payload site i r p.1 p.2 (by rw [hp])).2.2.2
      simp [List.replicate, hu, ih (i + 1)]

/-! ## Helper lemmas: base flight number and the duplicate check -/

theorem base_flight_number_eq_max_add_one {past : List Int} {mx : Int}
    (hs : past.Sorted (· ≥ ·)) (hm : past.maximum = some mx) :
    base_flight_number past = some (mx + 1) := by
  cases past with
  | nil => simp [List.maximum_nil] at hm
  | cons x t =>
    have hmem := List.maximum_eq_coe_iff.1 hm
    have hx : ∀ b ∈ x :: t, b ≤ x := by
      intro b hb
      rcases List.mem_cons.1 hb with rfl | hb
      · exact le_refl _
      · exact (List.sorted_cons.1 hs).1 b hb
    have hxm : x = mx := le_antisymm (hmem.2 x (by simp)) (hx mx hmem.1)
    simp [base_flight_number, hxm]

theorem dedup_length_lt_of_not_nodup {l : List Int} (h : ¬ l.Nodup) :
    l.dedup.length < l.length := by
  rcases Nat.lt_or_ge l.dedup.length l.length with hlt | hge
  · exact hlt
  · have hle := (List.dedup_sublist l).length_le
    have heq : l.dedup = l := (List.dedup_sublist l).eq_of_length (le_antisymm hle hge)
    exact absurd (heq ▸ List.nodup_dedup l) h

theorem scriptRun_abort {base : Int} {launches : List Launch} {rows : List ManifestRow}
    (h : ¬ ((runAll base launches rows).map Prod.fst).Nodup) :
    scriptRun base launches rows = ⟨1, [], []⟩ := by
  rw [scriptRun]
  simp only [if_pos (dedup_length_lt_of_not_nodup h)]

theorem scriptRun_ok {base : Int} {launches : List Launch} {rows : List ManifestRow}
    (h : ((runAll base launches rows).map Prod.fst).Nodup) :
    scriptRun base launches rows =
      ⟨0, (runAll base launches rows).map Prod.snd,
        reportFrom (launches.map Launch.payload) 0
          ((runAll base launches rows).map (fun p => p.2.payload))⟩ := by
  rw [scriptRun]
  have : ¬ ((runAll base launches rows).map Prod.fst).dedup.length <
      ((runAll base launches rows).map Prod.fst).length := by
    rw [List.dedup_eq_self.2 h]
    omega
  simp only [if_neg this]

/-! ## Claim theorems -/

/-- C1: on every input whose assigned flight numbers (ordinals) contain a
duplicate, the whole run aborts — zero updates are submitted to the store and
the process exits with the non-zero signal 1. -/
theorem claim1_duplicate_ordinals_abort (base : Int) (launches : List Launch)
    (rows : List ManifestRow)
    (h : ¬ ((runAll base launches rows).map Prod.fst).Nodup) :
    (scriptRun base launches rows).exit_code = 1 ∧
      (scriptRun base launches rows).submitted = [] := by
  rw [scriptRun_abort h]
  exact ⟨rfl, rfl⟩

/-- C1 witness: two payloads both matching the same manifest row collide on
the same ordinal, and the concrete run aborts with exit 1 and no
submissions. -/
theorem claim1_witness :
    ¬ ((runAll 50 [⟨cs "Starlink", "ccafs_slc_40"⟩, ⟨cs "Starlink-5", "stls"⟩]
        [⟨cs "2020 Nov 4", cs "Starlink-5 Mission", "SLC-40"⟩]).map Prod.fst).Nodup ∧
    (scriptRun 50 [⟨cs "Starlink", "ccafs_slc_40"⟩, ⟨cs "Starlink-5", "stls"⟩]
        [⟨cs "2020 Nov 4", cs "Starlink-5 Mission", "SLC-40"⟩]).exit_code = 1 ∧
    (scriptRun 50 [⟨cs "Starlink", "ccafs_slc_40"⟩, ⟨cs "Starlink-5", "stls"⟩]
        [⟨cs "2020 Nov 4", cs "Starlink-5 Mission", "SLC-40"⟩]).submitted = [] :=
  ⟨by decide, claim1_duplicate_ordinals_abort 50 _ _ (by decide)⟩

/-- C2: a pair enters the pipeline as a Match only when the partial-ratio
score is the maximum (100), and two labels that differ only in a trailing
character (distinct under the matcher's case folding) never cross-match in
either direction. -/
theorem claim2_match_only_at_max_score :
    (∀ (base : Int) (payload : List Char) (site : String) (i : Nat) (row : ManifestRow)
        (p : Int × UpdateRecord), processPair base payload site i row = some p →
        isMatch payload row.mpayload = true) ∧
    (∀ (s : List Char) (c d : Char), c.toLower ≠ d.toLower →
        isMatch (s ++ [c]) (s ++ [d]) = false ∧ isMatch (s ++ [d]) (s ++ [c]) = false) :=
  ⟨fun _ _ _ _ _ _ h => processPair_isMatch h,
   fun _ _ _ h => ⟨isMatch_trailing h, isMatch_trailing (fun he => h he.symm)⟩⟩

/-- C2 witness: `SSO-A` and `SSO-B` do not cross-match. -/
theorem claim2_witness :
    isMatch (cs "SSO-" ++ ['A']) (cs "SSO-" ++ ['B']) = false ∧
    isMatch (cs "SSO-" ++ ['B']) (cs "SSO-" ++ ['A']) = false :=
  claim2_match_only_at_max_score.2 (cs "SSO-") 'A' 'B' (by decide)

/-- C3: the base ordinal is one greater than the maximum ordinal among the
non-upcoming records, every produced Match receives `base + manifestIndex`,
and concretely base 50 with matches at manifest positions 0, 1, 2 yields
exactly the ordinals 50, 51, 52 in that assignment. -/
theorem claim3_ordinal_assignment :
    (∀ (past : List Int) (mx : Int), past.Sorted (· ≥ ·) → past.maximum = some mx →
      base_flight_number past = some (mx + 1)) ∧
    (∀ (base : Int) (payload : List Char) (site : String) (i : Nat) (row : ManifestRow)
      (n : Int) (u : UpdateRecord), processPair base payload site i row = some (n, u) →
      n = base + i ∧ u.flight_number = base + i) ∧
    ((runRowFrom 50 (cs "P") "stls" 0
        [⟨cs "2020 Nov 4", cs "P one", "BC"⟩, ⟨cs "2020 Dec 4", cs "P two", "BC"⟩,
         ⟨cs "2021 Jan 4", cs "P three", "BC"⟩]).map Prod.fst = [50, 51, 52]) :=
  ⟨fun _ _ hs hm => base_flight_number_eq_max_add_one hs hm,
   fun _ _ _ _ _ _ _ h => ⟨(processPair_fields h).1, (processPair_fields h).2.1⟩,
   by decide⟩

/-- C3 witness: a concrete descending history with maximum 49 yields base 50,
and the three-match run yields ordinals 50, 51, 52. -/
theorem claim3_witness :
    base_flight_number [49, 12] = some 50 ∧
    (runRowFrom 50 (cs "P") "stls" 0
        [⟨cs "2020 Nov 4", cs "P one", "BC"⟩, ⟨cs "2020 Dec 4", cs "P two", "BC"⟩,
         ⟨cs "2021 Jan 4", cs "P three", "BC"⟩]).map Prod.fst = [50, 51, 52] :=
  ⟨claim3_ordinal_assignment.1 [49, 12] 49 (by decide) (by decide),
   claim3_ordinal_assignment.2.2⟩

/-- C6: the localized display time is computed in the timezone derived from
the INTERNAL record's site id: the three East-coast ids map to
America/New_York, the two Vandenberg ids to America/Los_Angeles, everything
else to America/Chicago, and every update produced for a pair carries
`timeZoneFor site` where `site` is the internal record's site — independent of
the row's launchpad label. -/
theorem claim6_timezone_from_internal_site :
    timeZoneFor "ccafs_slc_40" = "America/New_York" ∧
    timeZoneFor "ksc_lc_39a" = "America/New_York" ∧
    timeZoneFor "ccafs_lc_13" = "America/New_York" ∧
    timeZoneFor "vafb_slc_4e" = "America/Los_Angeles" ∧
    timeZoneFor "vafb_slc_4w" = "America/Los_Angeles" ∧
    (∀ loc : String, loc ≠ "ccafs_slc_40" → loc ≠ "ksc_lc_39a" → loc ≠ "ccafs_lc_13" →
      loc ≠ "vafb_slc_4e" → loc ≠ "vafb_slc_4w" → timeZoneFor loc = "America/Chicago") ∧
    (∀ (base : Int) (payload : List Char) (site : String) (i : Nat) (row : ManifestRow)
      (n : Int) (u : UpdateRecord), processPair base payload site i row = some (n, u) →
      u.launch_local_zone = timeZoneFor site) := by
  refine ⟨by decide, by decide, by decide, by decide, by decide, ?_,
    fun _ _ _ _ _ _ _ h => (processPair_fields h).2.2.1⟩
  intro loc h1 h2 h3 h4 h5
  rw [timeZoneFor, if_neg (by tauto), if_neg (by tauto)]

/-- C6 witness: an unknown site id falls back to America/Chicago, and a pair
whose internal site is Vandenberg but whose manifest launchpad resolves to
Cape Canaveral still gets the Vandenberg (internal) timezone. -/
theorem claim6_witness :
    timeZoneFor "stls" = "America/Chicago" ∧
    (⟨cs "Z", 50, "America/Los_Angeles", true, Tier.day, false, some "ccafs_slc_40",
      some "CCAFS SLC 40", some "Cape Canaveral Air Force Station Space Launch Complex 40"⟩ :
        UpdateRecord).launch_local_zone = timeZoneFor "vafb_slc_4e" :=
  ⟨claim6_timezone_from_internal_site.2.2.2.2.2.1 "stls"
      (by decide) (by decide) (by decide) (by decide) (by decide),
   claim6_timezone_from_internal_site.2.2.2.2.2.2 50 (cs "Z") "vafb_slc_4e" 0
      ⟨cs "2020 Nov 4", cs "Z one", "SLC-40"⟩ 50 _ (by decide)⟩

/-- C7: launchpad resolution is an exact-string lookup — the compound label
`SLC-40 / LC-39A` resolves to `ccafs_slc_40`, every label outside the fixed
table resolves to `null` site fields without error, and a matched row with an
unrecognized launchpad still produces its update record, with all three site
fields `null`. -/
theorem claim7_launchpad_exact_lookup :
    resolveLaunchpad "SLC-40 / LC-39A" =
      some ("ccafs_slc_40", "CCAFS SLC 40",
        "Cape Canaveral Air Force Station Space Launch Complex 40") ∧
    (∀ lbl : String, ¬ lbl ∈ padTable → resolveLaunchpad lbl = none) ∧
    (∀ (base : Int) (payload : List Char) (site : String) (i : Nat) (row : ManifestRow)
      (c : Classified), isMatch payload row.mpayload = true → classify row.mdate = some c →
      resolveLaunchpad row.mpad = none →
      processPair base payload site i row = some (base + i,
        ⟨payload, base + i, timeZoneFor site, c.is_tentative, c.tier, c.tbd,
          none, none, none⟩)) := by
  refine ⟨by decide, ?_, ?_⟩
  · intro lbl h
    simp [padTable] at h
    obtain ⟨e1, e2, e3, e4, e5, e6, e7, e8, e9, e10⟩ := h
    rw [resolveLaunchpad, if_neg (by tauto), if_neg (by tauto), if_neg (by tauto),
      if_neg (by tauto)]
  · intro base payload site i row c hm hc hpad
    rw [processPair_some hm hc, hpad]
    rfl

/-- C7 witness: `unknown-pad` is outside the table, resolves to none, and the
row still produces an update with null site fields. -/
theorem claim7_witness :
    resolveLaunchpad "unknown-pad" = none ∧
    processPair 88 (cs "Starlink-5") "ccafs_slc_40" 0
      ⟨cs "2020 Nov 4", cs "Starlink-5 Mission", "unknown-pad"⟩ = some (88,
      ⟨cs "Starlink-5", 88, timeZoneFor "ccafs_slc_40", true, Tier.day, false,
        none, none, none⟩) :=
  ⟨claim7_launchpad_exact_lookup.2.1 "unknown-pad" (by decide),
   claim7_launchpad_exact_lookup.2.2 88 (cs "Starlink-5") "ccafs_slc_40" 0
     ⟨cs "2020 Nov 4", cs "Starlink-5 Mission", "unknown-pad"⟩
     ⟨Branch.bDay, Tier.day, false, true⟩ (by decide) (by decide) (by decide)⟩

/-- C8: a matched row whose raw date matches no pattern is skipped — it
contributes no update and no ordinal — and the remaining rows are processed
exactly as they would be otherwise, at their own manifest indices. -/
theorem claim8_unparsed_date_row_skipped :
    (∀ (base : Int) (payload : List Char) (site : String) (i : Nat) (row : ManifestRow),
      classify row.mdate = none → processPair base payload site i row = none) ∧
    (∀ (base : Int) (payload : List Char) (site : String) (i : Nat)
      (l1 : List ManifestRow) (bad : ManifestRow) (l2 : List ManifestRow),
      classify bad.mdate = none →
      runRowFrom base payload site i (l1 ++ bad :: l2) =
        runRowFrom base payload site i l1 ++
          runRowFrom base payload site (i + l1.length + 1) l2) := by
  refine ⟨fun _ _ _ _ _ h => processPair_none_of_classify_none h, ?_⟩
  intro base payload site i l1 bad l2 h
  rw [runRowFrom_append, runRowFrom_skip _ _ _ _ _ _ h]

/-- C8 witness: a row dated `No date` is skipped while its neighbours are
processed at their original indices. -/
theorem claim8_witness :
    classify (cs "No date") = none ∧
    runRowFrom 50 (cs "P") "stls" 0
        ([⟨cs "2020 Nov 4", cs "P one", "BC"⟩] ++
          ⟨cs "No date", cs "P two", "BC"⟩ :: [⟨cs "2021 Jan 4", cs "P three", "BC"⟩]) =
      runRowFrom 50 (cs "P") "stls" 0 [⟨cs "2020 Nov 4", cs "P one", "BC"⟩] ++
        runRowFrom 50 (cs "P") "stls" 2 [⟨cs "2021 Jan 4", cs "P three", "BC"⟩] :=
  ⟨by decide,
   claim8_unparsed_date_row_skipped.2 50 (cs "P") "stls" 0
     [⟨cs "2020 Nov 4", cs "P one", "BC"⟩] ⟨cs "No date", cs "P two", "BC"⟩
     [⟨cs "2021 Jan 4", cs "P three", "BC"⟩] (by decide)⟩

/-- C4 counterexample: `2020 Qux 4 [14:10]` matches the hour pattern family
(the source hour regex admits ANY 3–9 letters as the month token), yet the
classifier returns tier quarter with tentative = true and tbd = true — the
unanchored `Q` substring test fires before the hour pattern is ever tried —
refuting the claim that every hour-family string yields tentative = false and
tbd = false. -/
theorem claim4_counterexample :
    hour (cs "2020 Qux 4 [14:10]") = true ∧
    classify (cs "2020 Qux 4 [14:10]") = some ⟨Branch.bQ, Tier.quarter, true, true⟩ :=
  ⟨by decide, by decide⟩

/-- C4 (amended): every string matching the quarter family, a half family, or
a year family (`YYYY TBD` and bare `YYYY`) classifies with tentative = true
and tbd = true; every string matching the hour family classifies with
tentative = false and tbd = false, and every string matching the day family
classifies with tbd = false — the latter two provided the string does not
contain `Q`, `H1` or `H2` (automatic for genuine month names; the
counterexample shows the claim fails without this proviso). -/
theorem claim4_amended :
    (∀ s, quarterFam s = true → classify s = some ⟨Branch.bQ, Tier.quarter, true, true⟩) ∧
    (∀ s, halfFam1 s = true → classify s = some ⟨Branch.bH1, Tier.half, true, true⟩) ∧
    (∀ s, halfFam2 s = true → classify s = some ⟨Branch.bH2, Tier.half, true, true⟩) ∧
    (∀ s, year_tbd s = true → classify s = some ⟨Branch.bYearTbd, Tier.year, true, true⟩) ∧
    (∀ s, year s = true → classify s = some ⟨Branch.bYear, Tier.year, true, true⟩) ∧
    (∀ s, s.contains 'Q' = false → containsSub ['H', '1'] s = false →
      containsSub ['H', '2'] s = false → hour s = true →
      classify s = some ⟨Branch.bHour, Tier.hour, false, false⟩) ∧
    (∀ s, s.contains 'Q' = false → containsSub ['H', '1'] s = false →
      containsSub ['H', '2'] s = false → day s = true →
      classify s = some ⟨Branch.bDay, Tier.day, false, true⟩) :=
  ⟨fun _ h => quarterFam_classify h, fun _ h => halfFam1_classify h,
   fun _ h => halfFam2_classify h, fun _ h => year_tbd_classify h,
   fun _ h => year_classify h,
   fun _ hq h1 h2 hh => classify_of_hour hq h1 h2 hh,
   fun _ hq h1 h2 hd => classify_of_day hq h1 h2 hd⟩

/-- C4 witness: one concrete string per family, classified as the amended
claim states. -/
theorem claim4_amended_witness :
    classify (cs "2020 Q3") = some ⟨Branch.bQ, Tier.quarter, true, true⟩ ∧
    classify (cs "2020 H1") = some ⟨Branch.bH1, Tier.half, true, true⟩ ∧
    classify (cs "2020 H2") = some ⟨Branch.bH2, Tier.half, true, true⟩ ∧
    classify (cs "2020 TBD") = some ⟨Branch.bYearTbd, Tier.year, true, true⟩ ∧
    classify (cs "2020") = some ⟨Branch.bYear, Tier.year, true, true⟩ ∧
    classify (cs "2020 Nov 4 [14:10]") = some ⟨Branch.bHour, Tier.hour, false, false⟩ ∧
    classify (cs "2020 Nov 4") = some ⟨Branch.bDay, Tier.day, false, true⟩ :=
  ⟨claim4_amended.1 _ (by decide), claim4_amended.2.1 _ (by decide),
   claim4_amended.2.2.1 _ (by decide), claim4_amended.2.2.2.1 _ (by decide),
   claim4_amended.2.2.2.2.1 _ (by decide),
   claim4_amended.2.2.2.2.2.1 _ (by decide) (by decide) (by decide) (by decide),
   claim4_amended.2.2.2.2.2.2 _ (by decide) (by decide) (by decide) (by decide)⟩

/-- C5 counterexample: `2020 Nov TBD` does NOT match the plain anchored month
pattern (`^YYYY month$` admits nothing after the month token), so the claim's
example of a string "matching both the month_tbd pattern and the plain month
pattern" matches only `month_tbd`. -/
theorem claim5_counterexample :
    month_tbd (cs "2020 Nov TBD") = true ∧ month (cs "2020 Nov TBD") = false :=
  ⟨by decide, by decide⟩

/-- C5 (amended): the cascade returns the first matching branch in fixed
priority order, but the two anchored patterns `month_tbd` and `month` are
mutually exclusive, so no string matches both; `2020 Nov TBD` matches only
`month_tbd` and resolves to the month_tbd classification (tier month,
tentative = true, tbd = true), and where adjacent tests genuinely overlap —
the unanchored substring tests — the earlier test wins: a string containing
`Q` takes the quarter branch whatever else it matches, and a `month_tbd`
string free of the substring triggers takes the month_tbd branch, never the
plain-month branch. -/
theorem claim5_amended :
    (∀ s, month_tbd s = true → month s = false) ∧
    classify (cs "2020 Nov TBD") = some ⟨Branch.bMonthTbd, Tier.month, true, true⟩ ∧
    (∀ s, s.contains 'Q' = true →
      classify s = some ⟨Branch.bQ, Tier.quarter, true, true⟩) ∧
    (∀ s, s.contains 'Q' = false → containsSub ['H', '1'] s = false →
      containsSub ['H', '2'] s = false → month_tbd s = true →
      classify s = some ⟨Branch.bMonthTbd, Tier.month, true, true⟩) :=
  ⟨fun _ h => month_tbd_not_month h, by decide,
   fun _ h => classify_of_Q h,
   fun _ hq h1 h2 hm => classify_of_month_tbd hq h1 h2 hm⟩

/-- C5 witness: the disjointness and the priority facts instantiated at
concrete strings. -/
theorem claim5_witness :
    month (cs "2020 Nov TBD") = false ∧
    classify (cs "2020 QH1") = some ⟨Branch.bQ, Tier.quarter, true, true⟩ ∧
    classify (cs "2021 Dec TBD") = some ⟨Branch.bMonthTbd, Tier.month, true, true⟩ :=
  ⟨claim5_amended.1 _ (by decide), claim5_amended.2.2.1 _ (by decide),
   claim5_amended.2.2.2 _ (by decide) (by decide) (by decide) (by decide)⟩

/-- C9 counterexample: `2020 QH1` contains `H1` yet classifies as tier
quarter, not half — the `Q` containment test precedes the `H1` test — so
containing `H1` alone does not force the half classification. -/
theorem claim9_counterexample :
    containsSub ['H', '1'] (cs "2020 QH1") = true ∧
    classify (cs "2020 QH1") = some ⟨Branch.bQ, Tier.quarter, true, true⟩ :=
  ⟨by decide, by decide⟩

/-- C9 (amended): the quarter and half branches test raw substring
containment, not the anchored shapes: any string containing `Q` anywhere
(case-sensitively) classifies as tier quarter; any string without `Q`
containing `H1` anywhere classifies as tier half, and any string without `Q`
or `H1` containing `H2` anywhere classifies as tier half — whatever the shape
of the string, so these tests take priority over every anchored pattern that
follows. -/
theorem claim9_amended :
    (∀ s, s.contains 'Q' = true →
      classify s = some ⟨Branch.bQ, Tier.quarter, true, true⟩) ∧
    (∀ s, s.contains 'Q' = false → containsSub ['H', '1'] s = true →
      classify s = some ⟨Branch.bH1, Tier.half, true, true⟩) ∧
    (∀ s, s.contains 'Q' = false → containsSub ['H', '1'] s = false →
      containsSub ['H', '2'] s = true →
      classify s = some ⟨Branch.bH2, Tier.half, true, true⟩) :=
  ⟨fun _ h => classify_of_Q h, fun _ hq h1 => classify_of_H1 hq h1,
   fun _ hq h1 h2 => classify_of_H2 hq h1 h2⟩

/-- C9 witness: strings far from the `YYYY Q<n>` / `YYYY H<n>` shapes — one of
them even matching the day regex — still take the substring branches. -/
theorem claim9_witness :
    classify (cs "Quasar launch") = some ⟨Branch.bQ, Tier.quarter, true, true⟩ ∧
    classify (cs "2020 Qux 4") = some ⟨Branch.bQ, Tier.quarter, true, true⟩ ∧
    classify (cs "launch H1 window") = some ⟨Branch.bH1, Tier.half, true, true⟩ ∧
    classify (cs "launch H2 window") = some ⟨Branch.bH2, Tier.half, true, true⟩ :=
  ⟨claim9_amended.1 _ (by decide), claim9_amended.1 _ (by decide),
   claim9_amended.2.1 _ (by decide) (by decide),
   claim9_amended.2.2 _ (by decide) (by decide) (by decide)⟩

/-! ## Claim C10: the final per-row report -/

/-- Number of update submissions contributed by one internal payload. -/
def cnt (base : Int) (rows : List ManifestRow) (pl : Launch) : Nat :=
  (runPayload base pl rows).length

/-- The payload owners of the submitted updates, in submission order: one
block of `cnt` copies per internal payload. -/
def subsOf (base : Int) (launches : List Launch) (rows : List ManifestRow) :
    List (List Char) :=
  launches.flatMap (fun pl => List.replicate (cnt base rows pl) pl.payload)

theorem runAll_payloads (base : Int) (launches : List Launch) (rows : List ManifestRow) :
    (runAll base launches rows).map (fun p => p.2.payload) = subsOf base launches rows := by
  induction launches with
  | nil => rfl
  | cons pl pls ih =>
    show (runPayload base pl rows ++ runAll base pls rows).map (fun p => p.2.payload) =
      List.replicate (cnt base rows pl) pl.payload ++ subsOf base pls rows
    rw [List.map_append, ih]
    congr 1
    exact runRowFrom_payloads base pl.payload pl.site 0 rows

theorem reportFrom_ok_imp_take {subs : List (List Char)} :
    ∀ (ps : List (List Char)) (k : Nat),
      (∀ pr ∈ reportFrom ps k subs, pr.1 = some pr.2) →
      subs = (ps.drop k).take subs.length := by
  induction subs with
  | nil => intro ps k _; rfl
  | cons s ss ih =>
    intro ps k h
    have h0 : ps.get? k = some s :=
      h (ps.get? k, s) (by rw [reportFrom]; exact List.mem_cons_self _ _)
    have hrest := ih ps (k + 1)
      (fun pr hpr => h pr (by rw [reportFrom]; exact List.mem_cons_of_mem _ hpr))
    have hk : k < ps.length := by
      by_contra hk2
      push_neg at hk2
      rw [List.get?_eq_none.2 hk2] at h0
      cases h0
    have hget : ps.get ⟨k, hk⟩ = s := by
      rw [List.get?_eq_get hk] at h0
      exact Option.some.inj h0
    rw [List.drop_eq_get_cons hk, hget]
    simp only [List.length_cons, List.take_succ_cons]
    rw [← hrest]

theorem not_mem_subsOf {x : List Char} {base : Int} {rows : List ManifestRow}
    {launches : List Launch}
    (h : ∀ pl ∈ launches, pl.payload = x → cnt base rows pl = 0) :
    ¬ x ∈ subsOf base launches rows := by
  intro hm
  rcases List.mem_flatMap.1 hm with ⟨pl, hpl, hx⟩
  rcases List.mem_replicate.1 hx with ⟨hn, rfl⟩
  exact hn (h pl hpl rfl)

theorem not_nodup_subsOf_of_two (base : Int) (rows : List ManifestRow)
    (L1 L2 : List Launch) (pl : Launch) (hc : 2 ≤ cnt base rows pl) :
    ¬ (subsOf base (L1 ++ pl :: L2) rows).Nodup := by
  intro hnd
  have h2 : List.Sublist [pl.payload, pl.payload]
      (List.replicate (cnt base rows pl) pl.payload) := by
    have hrep : List.Sublist (List.replicate 2 pl.payload)
        (List.replicate (cnt base rows pl) pl.payload) :=
      (List.replicate_sublist_replicate _).2 hc
    simpa using hrep
  have hsub : List.Sublist [pl.payload, pl.payload] (subsOf base (L1 ++ pl :: L2) rows) := by
    rw [subsOf, List.flatMap_append, List.flatMap_cons]
    exact h2.trans ((List.sublist_append_left _ _).trans (List.sublist_append_right _ _))
  have hbad := hsub.nodup hnd
  simp at hbad

theorem length_lt_of_mem_take {x : List Char} {X Y : List (List Char)} {n : Nat}
    (hnd : (X ++ x :: Y).Nodup) (hm : x ∈ (X ++ x :: Y).take n) : X.length < n := by
  by_contra hle
  push_neg at hle
  rw [List.take_append_eq_append_take] at hm
  have h0 : n - X.length = 0 := by omega
  rw [h0] at hm
  simp only [List.take_zero, List.append_nil] at hm
  exact (List.disjoint_of_nodup_append hnd) (List.mem_of_mem_take hm)
    (List.mem_cons_self _ _)

theorem mem_take_of_mem_left {x : List Char} {X Z : List (List Char)} {n : Nat}
    (hx : x ∈ X) (hn : X.length < n) : x ∈ (X ++ Z).take n := by
  rw [List.take_append_eq_append_take, List.take_of_length_le (by omega)]
  exact List.mem_append_left _ hx

/-- C10 (amended): in every completed run, the result at position `index` is
labelled with `payloads[index]`; all labels identify the correct record only
when the submitted updates correspond, one-to-one and in order, to a prefix of
the internal payload list; and the report misidentifies some row whenever
(with pairwise-distinct payload ids) some payload has two or more matches, or
some payload with zero matches precedes a payload with a match. -/
theorem claim10_amended (base : Int) (launches : List Launch) (rows : List ManifestRow)
    (hnd : (launches.map Launch.payload).Nodup)
    (hok : ((runAll base launches rows).map Prod.fst).Nodup) :
    (scriptRun base launches rows).reportRows =
      reportFrom (launches.map Launch.payload) 0 (subsOf base launches rows) ∧
    ((∀ pr ∈ (scriptRun base launches rows).reportRows, pr.1 = some pr.2) →
      subsOf base launches rows =
        (launches.map Launch.payload).take (subsOf base launches rows).length) ∧
    (((∃ L1 pl L2, launches = L1 ++ pl :: L2 ∧ 2 ≤ cnt base rows pl) ∨
      (∃ L1 pli L2 plj L3, launches = L1 ++ pli :: L2 ++ plj :: L3 ∧
        cnt base rows pli = 0 ∧ 1 ≤ cnt base rows plj)) →
      ∃ pr ∈ (scriptRun base launches rows).reportRows, pr.1 ≠ some pr.2) := by
  have hrep : (scriptRun base launches rows).reportRows =
      reportFrom (launches.map Launch.payload) 0 (subsOf base launches rows) := by
    rw [scriptRun_ok hok, runAll_payloads]
  have htake0 : (∀ pr ∈ (scriptRun base launches rows).reportRows, pr.1 = some pr.2) →
      subsOf base launches rows =
        (launches.map Launch.payload).take (subsOf base launches rows).length := by
    intro hall
    rw [hrep] at hall
    have := reportFrom_ok_imp_take (launches.map Launch.payload) 0 hall
    rwa [List.drop_zero] at this
  refine ⟨hrep, htake0, ?_⟩
  intro hcase
  by_contra hno
  push_neg at hno
  have htake := htake0 hno
  have hsubnd : (subsOf base launches rows).Nodup := by
    rw [htake]
    exact (List.take_sublist _ _).nodup hnd
  rcases hcase with ⟨L1, pl, L2, rfl, hc⟩ | ⟨L1, pli, L2, plj, L3, rfl, hc0, hc1⟩
  · exact not_nodup_subsOf_of_two base rows L1 L2 pl hc hsubnd
  · set A := L1.map Launch.payload with hA
    set B := L2.map Launch.payload with hB
    set C := L3.map Launch.payload with hC
    have hps2 : ((L1 ++ pli :: L2) ++ plj :: L3).map Launch.payload =
        (A ++ pli.payload :: B) ++ plj.payload :: C := by
      simp [hA, hB, hC]
    have hndX : ((A ++ pli.payload :: B) ++ plj.payload :: C).Nodup := hps2 ▸ hnd
    have hndL : (A ++ pli.payload :: B).Nodup := (List.nodup_append.1 hndX).1
    have hxA : ¬ pli.payload ∈ A := fun hm =>
      (List.disjoint_of_nodup_append hndL) hm (List.mem_cons_self _ _)
    have hxB : ¬ pli.payload ∈ B := (List.nodup_cons.1 (List.nodup_append.1 hndL).2.1).1
    have hxyC : ¬ pli.payload ∈ plj.payload :: C := fun hm =>
      (List.disjoint_of_nodup_append hndX)
        (List.mem_append_right _ (List.mem_cons_self _ _)) hm
    have hxj : pli.payload ≠ plj.payload := fun he => hxyC (he ▸ List.mem_cons_self _ _)
    have hxC : ¬ pli.payload ∈ C := fun hm => hxyC (List.mem_cons_of_mem _ hm)
    have hzero : ∀ pl' ∈ (L1 ++ pli :: L2) ++ plj :: L3, pl'.payload = pli.payload →
        cnt base rows pl' = 0 := by
      intro pl' hmem he
      rcases List.mem_append.1 hmem with hm1 | hm2
      · rcases List.mem_append.1 hm1 with hm3 | hm4
        · exact absurd (he ▸ List.mem_map_of_mem Launch.payload hm3) hxA
        · rcases List.mem_cons.1 hm4 with rfl | hm5
          · exact hc0
          · exact absurd (he ▸ List.mem_map_of_mem Launch.payload hm5) hxB
      · rcases List.mem_cons.1 hm2 with rfl | hm6
        · exact absurd he.symm hxj
        · exact absurd (he ▸ List.mem_map_of_mem Launch.payload hm6) hxC
    have hmemj : plj.payload ∈ subsOf base ((L1 ++ pli :: L2) ++ plj :: L3) rows := by
      apply List.mem_flatMap.2
      refine ⟨plj, ?_, List.mem_replicate.2 ⟨by omega, rfl⟩⟩
      simp
    have hjtake : plj.payload ∈
        ((A ++ pli.payload :: B) ++ plj.payload :: C).take
          (subsOf base ((L1 ++ pli :: L2) ++ plj :: L3) rows).length := by
      rw [← hps2, ← htake]
      exact hmemj
    have hlen := length_lt_of_mem_take hndX hjtake
    have hmemi : pli.payload ∈ subsOf base ((L1 ++ pli :: L2) ++ plj :: L3) rows := by
      rw [htake, hps2]
      exact mem_take_of_mem_left
        (List.mem_append_right _ (List.mem_cons_self _ _)) hlen
    exact not_mem_subsOf hzero hmemi

/-- C10 counterexample: a run in which the second internal payload has zero
matches, yet every reported label identifies the correct record (the matched
payloads form a prefix of the internal list) — refuting the claim that the
report misidentifies rows in EVERY run containing a zero-match payload. -/
theorem claim10_counterexample :
    (runPayload 50 ⟨cs "B", "stls"⟩ [⟨cs "2020 Nov 4", cs "A mission", "BC"⟩]).length = 0 ∧
    (scriptRun 50 [⟨cs "A", "ccafs_slc_40"⟩, ⟨cs "B", "stls"⟩]
        [⟨cs "2020 Nov 4", cs "A mission", "BC"⟩]).exit_code = 0 ∧
    (scriptRun 50 [⟨cs "A", "ccafs_slc_40"⟩, ⟨cs "B", "stls"⟩]
        [⟨cs "2020 Nov 4", cs "A mission", "BC"⟩]).reportRows =
      [(some (cs "A"), cs "A")] :=
  ⟨by decide, by decide, by decide⟩

/-- C10 witness: with payload `A` matching two manifest rows and `B` matching
none, the completed run's report misidentifies a row. -/
theorem claim10_amended_witness :
    ∃ pr ∈ (scriptRun 50 [⟨cs "A", "ccafs_slc_40"⟩, ⟨cs "B", "stls"⟩]
        [⟨cs "2020 Nov 4", cs "A one", "BC"⟩,
         ⟨cs "2020 Dec 4", cs "A two", "BC"⟩]).reportRows,
      pr.1 ≠ some pr.2 :=
  (claim10_amended 50 [⟨cs "A", "ccafs_slc_40"⟩, ⟨cs "B", "stls"⟩]
      [⟨cs "2020 Nov 4", cs "A one", "BC"⟩, ⟨cs "2020 Dec 4", cs "A two", "BC"⟩]
      (by decide) (by decide)).2.2
    (Or.inl ⟨[], ⟨cs "A", "ccafs_slc_40"⟩, [⟨cs "B", "stls"⟩], rfl, by decide⟩)

end Upcoming
